import Mathlib

/-!
Verification of the environment adapter layer of the `angela` repository.

The repository wraps external RL simulators behind a uniform
`reset()/step()/render()` interface.  The parts embedded here are:

  * the frame stack used by the visual adapters
    (`GymAtari._add_frame` in `libs/environments/gym.py` and
    `UnityMLVisualEnvironmentSimple._add_frame` in `libs/environments.py`);
  * the `GymAtari` reset/step pipeline (`libs/environments/gym.py`);
  * the Pong-specific pre-processor `GymAtariPong._prepro`
    (`libs/environments/gym.py`), including its in-place writes through
    numpy views;
  * the vector adapter `Gym` / `GymEnvironment` reset/step transforms
    (one-hot encoding, normalization, action discretization);
  * a small store model used to reason about which numpy buffers the
    adapters share or copy.

numpy float arrays are modelled over the rationals; external collaborators
(the simulators, `cv2.resize`) are parameters of the definitions.
-/

/-- A pre-processed frame, as a list of rows of rational pixel values
(a numpy float array modelled over the rationals). -/
abbrev FrameL := List (List ℚ)

/-- A raw color observation: rows of columns of 3-channel pixels. -/
abbrev RGBFrameL := List (List (List ℚ))

/-- The `GymAtari` state buffer `full_state`, a numpy array of shape
`(1, 4, 80, 80)`: a list of batch rows (length 1), each a list of
frame slots (length 4). -/
abbrev FSA := List (List FrameL)

/-- One slot shift of a frame stack.  Translates the assignment chain of
`_add_frame` (`slot3 := slot2; slot2 := slot1; slot1 := slot0; slot0 := frame`)
on the list of slots: the new frame becomes slot 0 and the oldest slot is
dropped. -/
def stackPush (frame : α) (s : List α) : List α :=
  frame :: s.dropLast

/-- Push a sequence of frames, oldest first, onto a stack
(repeated `_add_frame` calls). -/
def stackPushSeq (s : List α) (frames : List α) : List α :=
  frames.foldl (fun acc f => stackPush f acc) s

/-- The initialization pattern used by `reset` of the visual adapters:
push the first frame `K` times onto the `K`-slot buffer, filling every
slot with it (`GymAtari.reset` calls `_add_frame(frame)` four times on
its 4-slot buffer). -/
def stackInitialize (K : ℕ) (frame : α) (s : List α) : List α :=
  stackPushSeq s (List.replicate K frame)

/-- Sanity bridge: on a literal 4-slot buffer, `stackPush` performs exactly
the assignment chain written out in `_add_frame`. -/
theorem stackPush_four (f a b c d : α) :
    stackPush f [a, b, c, d] = [f, a, b, c] := rfl

theorem length_stackPush (f : α) (s : List α) (hs : s ≠ []) :
    (stackPush f s).length = s.length := by
  have hlpos : 1 ≤ s.length := List.length_pos.mpr hs
  simp [stackPush, List.length_dropLast]
  omega

theorem take_append_take (a y : List α) (L : ℕ) :
    (a ++ y.take L).take L = (a ++ y).take L := by
  rw [List.take_append_eq_append_take, List.take_append_eq_append_take,
    List.take_take, Nat.min_eq_left (Nat.sub_le L a.length)]

/-- Pushing a sequence of frames onto a nonempty buffer keeps the newest
`s.length` values: the result is the reversed sequence followed by the
surviving prefix of the old buffer. -/
theorem stackPushSeq_eq_take (frames : List α) :
    ∀ s : List α, s ≠ [] →
      stackPushSeq s frames = (frames.reverse ++ s).take s.length := by
  induction frames with
  | nil => intro s _; simp [stackPushSeq]
  | cons f rest ih =>
    intro s hs
    have hlen : (stackPush f s).length = s.length := length_stackPush f s hs
    have hne : stackPush f s ≠ [] := by simp [stackPush]
    have hstep : stackPushSeq s (f :: rest) = stackPushSeq (stackPush f s) rest := rfl
    rw [hstep, ih (stackPush f s) hne, hlen]
    have hdl : stackPush f s = (f :: s).take s.length := by
      have hlpos : 1 ≤ s.length := List.length_pos.mpr hs
      obtain ⟨m, hm⟩ : ∃ m, s.length = m + 1 := ⟨s.length - 1, by omega⟩
      rw [hm, List.take_succ_cons, stackPush, List.dropLast_eq_take, hm]
      simp
    rw [hdl, take_append_take, List.reverse_cons, List.append_assoc]
    rfl

/-- Initializing a `K`-slot buffer fills every slot with the seed frame. -/
theorem stackInitialize_eq_replicate (K : ℕ) (f : α) (s : List α)
    (hK : 1 ≤ K) (hs : s.length = K) :
    stackInitialize K f s = List.replicate K f := by
  have hne : s ≠ [] := by
    intro h
    rw [h] at hs
    simp at hs
    omega
  rw [stackInitialize, stackPushSeq_eq_take _ s hne, hs, List.reverse_replicate]
  rw [List.take_append_eq_append_take, List.length_replicate, List.take_replicate]
  simp

/-- Pushing exactly `K` frames onto a `K`-slot buffer leaves exactly those
frames, newest first. -/
theorem stackPushSeq_full (K : ℕ) (s frames : List α)
    (hK : 1 ≤ K) (hs : s.length = K) (hf : frames.length = K) :
    stackPushSeq s frames = frames.reverse := by
  have hne : s ≠ [] := by
    intro h
    rw [h] at hs
    simp at hs
    omega
  rw [stackPushSeq_eq_take _ s hne, hs]
  rw [List.take_append_eq_append_take, List.length_reverse, hf]
  simp [hf]

/-- Grayscale conversion as performed by `skimage.color.rgb2gray` on a
uint8 image: scale to `[0,1]` and take the luma-weighted channel sum
(weights 0.2125, 0.7154, 0.0721). -/
def rgb2gray (raw : RGBFrameL) : FrameL :=
  raw.map (fun row => row.map (fun px =>
    (2125 / 10000 * px.getD 0 0 + 7154 / 10000 * px.getD 1 0
      + 721 / 10000 * px.getD 2 0) / 255))

namespace GymAtari

/-- The generic Atari pre-processor `GymAtari._prepro`: grayscale then
downsample to 80x80.  `cv2.resize` is an external collaborator and is a
parameter `resize`. -/
def prepro (resize : FrameL → FrameL) (raw : RGBFrameL) : FrameL :=
  resize (rgb2gray raw)

/-- The generic pre-processor together with the final contents of the
caller's input buffer.  `rgb2gray` and `cv2.resize` both allocate fresh
arrays, so the input buffer is returned untouched. -/
def preproPair (resize : FrameL → FrameL) (raw : RGBFrameL) :
    FrameL × RGBFrameL :=
  (prepro resize raw, raw)

/-- `GymAtari._add_frame`: the assignment chain
`full_state[:, 3] = full_state[:, 2]; ...; full_state[:, 0] = frame`
shifts the four slots of every batch row and writes the matching row of
the incoming `(1, 80, 80)` frame into slot 0. -/
def addFrame (full_state : FSA) (frame : List FrameL) : FSA :=
  List.zipWith (fun row f => stackPush f row) full_state frame

/-- The buffer `GymAtari.__init__` allocates:
`np.zeros((1, 4, 80, 80), dtype=np.float32)`. -/
def initFullState : FSA :=
  [List.replicate 4 (List.replicate 80 (List.replicate 80 (0 : ℚ)))]

/-- The new value of `full_state` produced by `GymAtari.reset`:
pre-process the raw frame, reshape it to `(1, 80, 80)` (the singleton
batch list), and push it four times. -/
def resetVal (resize : FrameL → FrameL) (full_state : FSA)
    (raw : RGBFrameL) : FSA :=
  let frame := [prepro resize raw]
  addFrame (addFrame (addFrame (addFrame full_state frame) frame) frame) frame

/-- The new value of `full_state` produced by `GymAtari.step`: pre-process
the raw frame from the simulator and push it once. -/
def stepVal (resize : FrameL → FrameL) (full_state : FSA)
    (raw : RGBFrameL) : FSA :=
  addFrame full_state [prepro resize raw]

end GymAtari

/-- The numpy shape of a `full_state` value (four axes, as allocated by
`np.zeros((1, 4, 80, 80))`). -/
def shape4 (s : FSA) : List ℕ :=
  [s.length, (s.headD []).length, ((s.headD []).headD []).length,
    (((s.headD []).headD []).headD []).length]

theorem gymAtari_addFrame_singleton (row : List FrameL) (f : FrameL) :
    GymAtari.addFrame [row] [f] = [stackPush f row] := rfl

/-- On a single-batch buffer with four slots, `GymAtari.reset` fills every
slot with the pre-processed first frame. -/
theorem gymAtari_resetVal_eq (resize : FrameL → FrameL) (row : List FrameL)
    (raw : RGBFrameL) (hrow : row.length = 4) :
    GymAtari.resetVal resize [row] raw
      = [List.replicate 4 (GymAtari.prepro resize raw)] := by
  have h : GymAtari.resetVal resize [row] raw
      = [stackInitialize 4 (GymAtari.prepro resize raw) row] := rfl
  rw [h, stackInitialize_eq_replicate 4 _ row (by omega) hrow]

/-- A store of numpy array buffers: cell addresses are list indices.
Used to distinguish the arrays an adapter mutates in place, the fresh
arrays it allocates (`np.zeros`, `np.stack`, `.copy()`), and the
references it hands back to the caller. -/
structure Store (V : Type) where
  cells : List V

/-- Allocate a fresh buffer holding `v`; returns the new store and the
fresh address. -/
def Store.alloc (h : Store V) (v : V) : Store V × ℕ :=
  (⟨h.cells ++ [v]⟩, h.cells.length)

/-- Read the buffer at address `a` (default `d` for a dangling address). -/
def Store.readD (h : Store V) (a : ℕ) (d : V) : V :=
  h.cells.getD a d

/-- Overwrite the buffer at address `a` in place. -/
def Store.write (h : Store V) (a : ℕ) (v : V) : Store V :=
  ⟨h.cells.set a v⟩

theorem Store.readD_write_ne (h : Store V) (a b : ℕ) (v d : V) (hab : a ≠ b) :
    (h.write a v).readD b d = h.readD b d := by
  simp [Store.write, Store.readD, List.getD, List.getElem?_set_ne hab]

theorem Store.readD_write_eq (h : Store V) (a : ℕ) (v d : V)
    (ha : a < h.cells.length) :
    (h.write a v).readD a d = v := by
  simp [Store.write, Store.readD, List.getD, List.getElem?_set_self, ha]

theorem Store.readD_alloc_old (h : Store V) (v d : V) (a : ℕ)
    (ha : a < h.cells.length) :
    (h.alloc v).1.readD a d = h.readD a d := by
  simp [Store.alloc, Store.readD, List.getD, List.getElem?_append_left ha]

theorem Store.readD_alloc_new (h : Store V) (v d : V) :
    (h.alloc v).1.readD (h.alloc v).2 d = v := by
  simp [Store.alloc, Store.readD, List.getD]

theorem Store.length_write (h : Store V) (a : ℕ) (v : V) :
    (h.write a v).cells.length = h.cells.length := by
  simp [Store.write]

namespace GymAtari

/-- `GymAtari.reset` at the buffer level: the four `_add_frame` calls
mutate the `full_state` buffer in place, and `return self.full_state.copy()`
hands the caller a freshly allocated copy.  Returns the new store and the
address of the returned state. -/
def resetStore (resize : FrameL → FrameL) (h : Store FSA) (buf : ℕ)
    (raw : RGBFrameL) : Store FSA × ℕ :=
  let v := resetVal resize (h.readD buf []) raw
  (h.write buf v).alloc v

/-- `GymAtari.step` at the buffer level: one in-place `_add_frame`, then
`return self.full_state.copy()` allocates a fresh copy.  The reward and
done flag pass through from the simulator unchanged and are omitted. -/
def stepStore (resize : FrameL → FrameL) (h : Store FSA) (buf : ℕ)
    (raw : RGBFrameL) : Store FSA × ℕ :=
  let v := stepVal resize (h.readD buf []) raw
  (h.write buf v).alloc v

end GymAtari

namespace UnityVis

/-- `UnityMLVisualEnvironmentSimple.reset` at the buffer level:
`self.full_state = np.stack((frame, frame, frame, frame), axis=2)`
allocates a fresh buffer whose four slices along the stacking axis all
equal the first frame, rebinds `full_state` to it, and
`return self.full_state` hands the caller that very buffer.  Returns the
new store, the new `full_state` address, and the returned address.
A buffer is modelled by its list of slices along the stacking axis. -/
def resetStore (h : Store (List α)) (frame : α) :
    Store (List α) × ℕ × ℕ :=
  let p := h.alloc (List.replicate 4 frame)
  (p.1, p.2, p.2)

/-- `UnityMLVisualEnvironmentSimple.step` at the buffer level:
`_add_frame` shifts the slices of `full_state` in place and returns
`self.full_state`, so the caller receives the internal buffer address.
Reward and done flag pass through from the simulator and are omitted. -/
def stepStore (h : Store (List α)) (buf : ℕ) (frame : α) :
    Store (List α) × ℕ :=
  (h.write buf (stackPush frame (h.readD buf [])), buf)

end UnityVis

/-- The error taxonomy of the adapter layer as named by the specification. -/
inductive AdapterError where
  | AdapterNotReady
  | InvalidObservationShape
  | StackNotInitialized
  | ExternalError
deriving DecidableEq, Repr

/-- An observation coming back from a generic simulator: a discrete state
index (e.g. FrozenLake), a numeric vector, or a scalar. -/
inductive GymObs where
  | disc (s : ℕ)
  | vec (v : List ℚ)
  | scal (x : ℚ)
deriving DecidableEq, Repr

/-- An action handed to the underlying simulator: either the model's
discrete index passed through, or a continuous action vector. -/
inductive GymAction where
  | disc (a : ℕ)
  | cont (v : List ℚ)
deriving DecidableEq, Repr

/-- The external simulator behind the `Gym` / `GymEnvironment` adapter
(an external collaborator): its reset observation, its transition
function, and its action-space bounds. -/
structure ExtGymEnv where
  reset : GymObs
  step : GymAction → GymObs × ℚ × Bool
  action_low : List ℚ
  action_high : List ℚ

/-- The configuration the `Gym` / `GymEnvironment` adapter keeps from its
constructor.  `obs_space_high` is only read when `normalize` is set. -/
structure GymConfig where
  one_hot : Option ℕ
  action_bins : Option (List ℕ)
  normalize : Bool
  obs_space_high : ℚ
deriving DecidableEq, Repr

/-- Row `s` of `np.eye(n)`: the one-hot encoding of state index `s`. -/
def npEyeRow (n s : ℕ) : List ℚ :=
  (List.range n).map (fun i => if i = s then 1 else 0)

/-- The normalization stage of the vector adapter: divide the state by
`obs_space_high` when `normalize` is configured. -/
def gymNormalize (cfg : GymConfig) (obs : GymObs) : GymObs :=
  if cfg.normalize then
    match obs with
    | .disc s => .scal ((s : ℚ) / cfg.obs_space_high)
    | .vec v => .vec (v.map (fun x => x / cfg.obs_space_high))
    | .scal x => .scal (x / cfg.obs_space_high)
  else obs

/-- The state transform shared by `reset` and `step` of the vector
adapter: one-hot encode when `one_hot` is configured (`np.eye(n)[state]`,
which requires a discrete index in range — anything else raises in
numpy, modelled as `ExternalError`), then divide by `obs_space_high`
when `normalize` is configured. -/
def gymTransform (cfg : GymConfig) (obs : GymObs) :
    Except AdapterError GymObs :=
  let step1 : Except AdapterError GymObs :=
    match cfg.one_hot with
    | none => .ok obs
    | some n =>
      match obs with
      | .disc s =>
        if s < n then .ok (.vec (npEyeRow n s)) else .error .ExternalError
      | _ => .error .ExternalError
  match step1 with
  | .error e => .error e
  | .ok obs1 => .ok (gymNormalize cfg obs1)

/-- Modelled from the spec: `create_uniform_grid` lives in
`libs/discretize.py`, which is not part of the sources here; only its
caller (`Gym.step` / `GymEnvironment.step`) is.  Per the specification
the Discretizer lays a uniform grid over each dimension of the action
space and the grid includes the space boundaries (index 0 maps to the
low bound, the last index to the high bound), so dimension `d` holds the
`bins d` evenly spaced points from `low d` to `high d`. -/
def create_uniform_grid (low high : List ℚ) (bins : List ℕ) :
    List (List ℚ) :=
  List.zipWith (fun lh b =>
      (List.range b).map (fun i => lh.1 + (lh.2 - lh.1) * i / (b - 1)))
    (low.zip high) bins

namespace Gym

/-- `Gym.reset` / `GymEnvironment.reset`: take the simulator's reset
observation and apply the configured transforms.  There is no readiness
bookkeeping of any kind in the adapter. -/
def resetE (cfg : GymConfig) (env : ExtGymEnv) :
    Except AdapterError GymObs :=
  gymTransform cfg env.reset

/-- The raw transition `Gym.step` / `GymEnvironment.step` obtains from
the simulator: when `action_bins` is configured, recompute the uniform
grid from the action-space bounds and send the singleton continuous
action `[action_grid[0][action]]`; otherwise pass the action through. -/
def stepRaw (cfg : GymConfig) (env : ExtGymEnv) (action : ℕ) :
    GymObs × ℚ × Bool :=
  match cfg.action_bins with
  | some bins =>
    let action_grid := create_uniform_grid env.action_low env.action_high bins
    env.step (.cont [(action_grid.headD []).getD action 0])
  | none => env.step (.disc action)

/-- `Gym.step` / `GymEnvironment.step`: take the simulator transition and
apply the state transforms.  The adapter keeps no readiness flag, so the
behavior is the same whether or not `reset` was ever called. -/
def stepE (cfg : GymConfig) (env : ExtGymEnv) (action : ℕ) :
    Except AdapterError (GymObs × ℚ × Bool) :=
  let tr := stepRaw cfg env action
  match gymTransform cfg tr.1 with
  | .error e => .error e
  | .ok st => .ok (st, tr.2.1, tr.2.2)

/-- `Gym.render` / `GymEnvironment.render`: calls the simulator's
rendering and sleeps for `frame_sleep`; it performs no readiness check
and cannot fail at the adapter level. -/
def renderE (_cfg : GymConfig) (_env : ExtGymEnv) :
    Except AdapterError Unit :=
  .ok ()

end Gym

/-- A raw Atari observation for the Pong pre-processor: a 210x160x3 uint8
array, modelled as a function from (row, column, channel) to the pixel
value. -/
abbrev PFrame := ℕ → ℕ → ℕ → ℕ

namespace GymAtariPong

/-- Membership in the view `frame[35:195][::2, ::2, 0]` of the input
array built by the two slicing steps of `GymAtariPong._prepro`: rows
`35 + 2*i` for `i < 80`, even columns, channel 0.  The in-place
assignments of `_prepro` write exactly through this view. -/
def inView (r c ch : ℕ) : Prop :=
  35 ≤ r ∧ r < 195 ∧ (r - 35) % 2 = 0 ∧ c % 2 = 0 ∧ ch = 0

instance (r c ch : ℕ) : Decidable (inView r c ch) := by
  unfold inView
  infer_instance

/-- One in-place masked assignment `view[view == v0] = newv` on the
underlying input buffer: every buffer cell reachable through the view
whose value is `v0` is set to `newv`. -/
def maskAssignEq (v0 newv : ℕ) (f : PFrame) : PFrame :=
  fun r c ch => if inView r c ch ∧ f r c ch = v0 then newv else f r c ch

/-- The in-place assignment `view[view != 0] = 1` on the underlying
input buffer. -/
def maskAssignNe0 (f : PFrame) : PFrame :=
  fun r c ch => if inView r c ch ∧ f r c ch ≠ 0 then 1 else f r c ch

/-- The contents of the caller's input buffer after
`GymAtariPong._prepro` ran: erase background value 144, then background
value 109, then set every remaining nonzero view pixel to 1 — all three
through the view, in place. -/
def preproBuf (f : PFrame) : PFrame :=
  maskAssignNe0 (maskAssignEq 109 0 (maskAssignEq 144 0 f))

/-- The 80x80 frame `GymAtariPong._prepro` returns: the view (cropped to
rows 35..194, subsampled by stride 2, channel 0) of the mutated buffer. -/
def preproOut (f : PFrame) : ℕ → ℕ → ℕ :=
  fun i j => preproBuf f (35 + 2 * i) (2 * j) 0

/-- The pre-processed pixel as the specification describes it: crop and
subsample, zero the two known background values, binarize every other
nonzero pixel to 1. -/
def preproSpecDescribed (f : PFrame) : ℕ → ℕ → ℕ :=
  fun i j =>
    let v := f (35 + 2 * i) (2 * j) 0
    if v = 144 ∨ v = 109 then 0 else if v ≠ 0 then 1 else 0

/-- Every position of the output grid lies in the view. -/
theorem inView_grid (i j : ℕ) (hi : i < 80) :
    inView (35 + 2 * i) (2 * j) 0 := by
  refine ⟨by omega, by omega, ?_, ?_, rfl⟩
  · omega
  · omega

end GymAtariPong

/-- The common buffer discipline of `GymAtari.reset` and `GymAtari.step`:
overwrite the internal buffer in place, then hand back a freshly
allocated copy.  The returned address is fresh, the store grows by one
cell, old cells other than the internal buffer are untouched, and the
copy holds the written value. -/
theorem writeAlloc_spec (h : Store V) (buf : ℕ) (v d : V)
    (hbuf : buf < h.cells.length) :
    ((h.write buf v).alloc v).2 = h.cells.length ∧
    ((h.write buf v).alloc v).1.cells.length = h.cells.length + 1 ∧
    (∀ a, a ≠ buf → a < h.cells.length →
      ((h.write buf v).alloc v).1.readD a d = h.readD a d) ∧
    ((h.write buf v).alloc v).1.readD h.cells.length d = v ∧
    ((h.write buf v).alloc v).1.readD buf d = v := by
  refine ⟨?_, ?_, ?_, ?_, ?_⟩
  · simp [Store.alloc, Store.length_write]
  · simp [Store.alloc, Store.length_write]
  · intro a ha hlt
    rw [Store.readD_alloc_old _ _ _ _ (by rw [Store.length_write]; exact hlt)]
    exact Store.readD_write_ne h buf a v d (fun hc => ha hc.symm)
  · have h2 := Store.readD_alloc_new (h.write buf v) v d
    have h3 : ((h.write buf v).alloc v).2 = h.cells.length := by
      simp [Store.alloc, Store.length_write]
    rw [h3] at h2
    exact h2
  · rw [Store.readD_alloc_old _ _ _ _ (by rw [Store.length_write]; exact hbuf)]
    exact Store.readD_write_eq h buf v d hbuf

/-- The state transform of the vector adapter can fail only with an
error raised inside numpy, never with a readiness error. -/
theorem gymTransform_no_ready_error (cfg : GymConfig) (obs : GymObs) :
    gymTransform cfg obs ≠ Except.error .AdapterNotReady := by
  unfold gymTransform
  rcases hoh : cfg.one_hot with _ | n
  · simp
  · rcases obs with s | v | x
    · by_cases hs : s < n <;> simp [hs]
    · simp
    · simp

/-- With one-hot encoding and normalization both off, the state transform
is the identity. -/
theorem gymTransform_id (cfg : GymConfig) (obs : GymObs)
    (hoh : cfg.one_hot = none) (hn : cfg.normalize = false) :
    gymTransform cfg obs = Except.ok obs := by
  simp [gymTransform, gymNormalize, hoh, hn]

/-- C2: for every frame F and every stack depth K >= 1, initializing the
frame stack with F — the reset pattern of the visual adapters, which
pushes the first frame once per slot — fills all K slots with F, so the
stacked state read immediately afterwards is K identical copies of F
with no uninitialized history; in particular `GymAtari.reset` leaves all
four slots of its single-batch buffer equal to the pre-processed first
frame, whatever the buffer held before. -/
theorem c2_initialize_fills_all_slots :
    (∀ (α : Type) (K : ℕ) (F : α) (s : List α), 1 ≤ K → s.length = K →
      stackInitialize K F s = List.replicate K F) ∧
    (∀ (resize : FrameL → FrameL) (row : List FrameL) (raw : RGBFrameL),
      row.length = 4 →
      GymAtari.resetVal resize [row] raw
        = [List.replicate 4 (GymAtari.prepro resize raw)]) := by
  constructor
  · intro α K F s hK hs
    exact stackInitialize_eq_replicate K F s hK hs
  · intro resize row raw hrow
    exact gymAtari_resetVal_eq resize row raw hrow

/-- C2 witness: a 3-deep stack initialized with 7 holds three copies of 7,
and a `GymAtari` reset on a 4-slot buffer of empty frames holds four
copies of the pre-processed frame. -/
theorem c2_witness :
    stackInitialize 3 (7 : ℕ) [1, 2, 3] = List.replicate 3 7 ∧
    GymAtari.resetVal (fun _ => [[5]]) [[[], [], [], []]] []
      = [List.replicate 4 [[(5 : ℚ)]]] :=
  ⟨c2_initialize_fills_all_slots.1 ℕ 3 7 [1, 2, 3] (by omega) rfl,
   c2_initialize_fills_all_slots.2 (fun _ => [[5]]) [[], [], [], []] [] rfl⟩

/-- C3: after initializing the K-deep frame stack with F0 and pushing
F1..FK in order, the stack holds exactly FK..F1 newest-first (the
reverse of the pushed sequence), and if the seed value F0 is not among
the pushed frames it is present in no slot. -/
theorem c3_seed_fully_evicted :
    ∀ (α : Type) (K : ℕ) (F0 : α) (frames : List α), 1 ≤ K →
      frames.length = K →
      stackPushSeq (List.replicate K F0) frames = frames.reverse ∧
      (F0 ∉ frames → F0 ∉ stackPushSeq (List.replicate K F0) frames) := by
  intro α K F0 frames hK hf
  have h := stackPushSeq_full K (List.replicate K F0) frames hK (by simp) hf
  refine ⟨h, fun hm => ?_⟩
  rw [h]
  simpa using hm

/-- C3 witness: pushing 1 then 2 onto a 2-deep stack seeded with 0 leaves
exactly [2, 1], and 0 is in no slot. -/
theorem c3_witness :
    stackPushSeq (List.replicate 2 (0 : ℕ)) [1, 2] = [2, 1] ∧
    ((0 : ℕ) ∉ [1, 2] → (0 : ℕ) ∉ stackPushSeq (List.replicate 2 (0 : ℕ)) [1, 2]) :=
  c3_seed_fully_evicted ℕ 2 0 [1, 2] (by omega) rfl

/-- C5: for a vector adapter configured with one_hot = 16 and an
underlying environment whose reset returns the discrete state index 5,
`reset()` returns the length-16 one-hot vector with a 1 at position 5
and 0 everywhere else. -/
theorem c5_one_hot_reset (cfg : GymConfig) (env : ExtGymEnv)
    (hoh : cfg.one_hot = some 16) (hn : cfg.normalize = false)
    (hres : env.reset = .disc 5) :
    Gym.resetE cfg env = .ok (.vec (npEyeRow 16 5)) ∧
    (npEyeRow 16 5).length = 16 ∧
    (npEyeRow 16 5).getD 5 0 = 1 ∧
    (∀ i, i < 16 → i ≠ 5 → (npEyeRow 16 5).getD i 0 = 0) := by
  refine ⟨?_, by decide, by decide, by decide⟩
  simp [Gym.resetE, gymTransform, gymNormalize, hoh, hn, hres]

/-- C5 witness: the adapter with one_hot = 16 over a simulator resetting
to discrete state 5 returns the one-hot vector at position 5. -/
theorem c5_witness :
    Gym.resetE ⟨some 16, none, false, 1⟩
        ⟨.disc 5, fun _ => (.disc 5, 0, false), [], []⟩
      = .ok (.vec (npEyeRow 16 5)) ∧
    (npEyeRow 16 5).length = 16 ∧
    (npEyeRow 16 5).getD 5 0 = 1 ∧
    (∀ i, i < 16 → i ≠ 5 → (npEyeRow 16 5).getD i 0 = 0) :=
  c5_one_hot_reset ⟨some 16, none, false, 1⟩
    ⟨.disc 5, fun _ => (.disc 5, 0, false), [], []⟩ rfl rfl rfl

/-- C6: with a one-dimensional continuous action space bounded by [-1, 1]
split into 3 bins, the adapter's step maps action index 0 to the
continuous action -1 and action index 2 to the continuous action 1: the
uniform grid includes the space boundaries.  (The Discretizer itself is
modelled from the spec, `libs/discretize.py` not being among the
sources.) -/
theorem c6_discretization_boundaries (cfg : GymConfig) (env : ExtGymEnv)
    (hb : cfg.action_bins = some [3]) (hoh : cfg.one_hot = none)
    (hn : cfg.normalize = false)
    (hlo : env.action_low = [-1]) (hhi : env.action_high = [1]) :
    Gym.stepE cfg env 0 = .ok (env.step (.cont [-1])) ∧
    Gym.stepE cfg env 2 = .ok (env.step (.cont [1])) := by
  have hgrid : create_uniform_grid env.action_low env.action_high [3]
      = [[-1, 0, 1]] := by
    rw [hlo, hhi]
    simp [create_uniform_grid, List.range_succ]
    norm_num
  constructor
  · have hraw : Gym.stepRaw cfg env 0 = env.step (.cont [-1]) := by
      simp [Gym.stepRaw, hb, hgrid]
    simp [Gym.stepE, hraw, gymTransform_id cfg _ hoh hn]
  · have hraw : Gym.stepRaw cfg env 2 = env.step (.cont [1]) := by
      simp [Gym.stepRaw, hb, hgrid]
    simp [Gym.stepE, hraw, gymTransform_id cfg _ hoh hn]

/-- C6 witness: a concrete adapter over a simulator that echoes its
continuous action back as the next state maps index 0 to action [-1]
and index 2 to action [1]. -/
theorem c6_witness :
    Gym.stepE ⟨none, some [3], false, 1⟩
        ⟨.vec [], fun a => ((match a with
          | .cont v => GymObs.vec v
          | .disc n => GymObs.vec [(n : ℚ)]), (0 : ℚ), false), [-1], [1]⟩ 0
      = .ok (.vec [-1], 0, false) ∧
    Gym.stepE ⟨none, some [3], false, 1⟩
        ⟨.vec [], fun a => ((match a with
          | .cont v => GymObs.vec v
          | .disc n => GymObs.vec [(n : ℚ)]), (0 : ℚ), false), [-1], [1]⟩ 2
      = .ok (.vec [1], 0, false) :=
  c6_discretization_boundaries _ _ rfl rfl rfl rfl rfl

/-- C1 counterexample: on a freshly constructed vector adapter on which
`reset()` has never been called, `step()` succeeds with an ordinary
transition and `render()` succeeds, instead of failing with
`AdapterNotReady`: the source of `Gym.step` / `GymEnvironment.step`
delegates to the simulator with no readiness check at all. -/
theorem c1_counterexample :
    Gym.stepE ⟨none, none, false, 1⟩
        ⟨.vec [0], fun _ => (.vec [0], 0, false), [], []⟩ 0
      = .ok (.vec [0], 0, false) ∧
    Gym.stepE ⟨none, none, false, 1⟩
        ⟨.vec [0], fun _ => (.vec [0], 0, false), [], []⟩ 0
      ≠ .error .AdapterNotReady ∧
    Gym.renderE ⟨none, none, false, 1⟩
        ⟨.vec [0], fun _ => (.vec [0], 0, false), [], []⟩
      = .ok () := by
  refine ⟨rfl, ?_, rfl⟩
  intro h
  simp [Gym.stepE, Gym.stepRaw, gymTransform, gymNormalize] at h

/-- C1 amended: the adapters keep no readiness state at all, so `step()`
and `render()` called before any `reset()` do not fail with
`AdapterNotReady` (nor can any call ever produce that error); they
delegate directly to the underlying environment, whose transition is
returned as usual. -/
theorem c1_amended_no_ready_check (cfg : GymConfig) (env : ExtGymEnv)
    (action : ℕ) :
    Gym.stepE cfg env action ≠ .error .AdapterNotReady ∧
    Gym.renderE cfg env ≠ .error .AdapterNotReady := by
  constructor
  · have hg := gymTransform_no_ready_error cfg (Gym.stepRaw cfg env action).1
    rcases h : gymTransform cfg (Gym.stepRaw cfg env action).1 with e | st
    · rw [h] at hg
      simp only [Gym.stepE, h]
      intro he
      apply hg
      rw [Except.error.injEq] at he ⊢
      exact he
    · simp only [Gym.stepE, h]
      simp
  · simp [Gym.renderE]

/-- C4 counterexample: the state `GymAtari.reset` returns is the copy of
`full_state`, which `__init__` allocates as `np.zeros((1, 4, 80, 80))`,
so its numpy shape is (1, 4, 80, 80) — including the leading batch axis
of size 1 — and not (4, 80, 80) as the claim states. -/
theorem c4_counterexample :
    shape4 (GymAtari.resetVal
        (fun _ => List.replicate 80 (List.replicate 80 (0 : ℚ)))
        GymAtari.initFullState []) = [1, 4, 80, 80] ∧
    ([1, 4, 80, 80] : List ℕ) ≠ [4, 80, 80] := by
  constructor
  · rfl
  · decide

/-- C4 amended: for the visual adapter with stack depth 4 and 80x80
resolution, the state returned by `reset()` has shape (1, 4, 80, 80)
(a leading batch axis of size 1 before the four stacked 80x80 frames),
and after one subsequent `step()` the newest slot of the returned state
holds the new pre-processed frame while each of the other three slots
holds the frame previously one position newer. -/
theorem c4_amended_shape_and_shift (resize : FrameL → FrameL)
    (row : List FrameL) (raw0 raw1 : RGBFrameL)
    (hrow : row.length = 4)
    (hres : ∀ g, (resize g).length = 80 ∧ ((resize g).headD []).length = 80) :
    shape4 (GymAtari.resetVal resize [row] raw0) = [1, 4, 80, 80] ∧
    shape4 (GymAtari.stepVal resize (GymAtari.resetVal resize [row] raw0) raw1)
      = [1, 4, 80, 80] ∧
    ((GymAtari.stepVal resize (GymAtari.resetVal resize [row] raw0) raw1).headD
        []).getD 0 [] = GymAtari.prepro resize raw1 ∧
    ((GymAtari.stepVal resize (GymAtari.resetVal resize [row] raw0) raw1).headD
        []).getD 1 []
      = ((GymAtari.resetVal resize [row] raw0).headD []).getD 0 [] ∧
    ((GymAtari.stepVal resize (GymAtari.resetVal resize [row] raw0) raw1).headD
        []).getD 2 []
      = ((GymAtari.resetVal resize [row] raw0).headD []).getD 1 [] ∧
    ((GymAtari.stepVal resize (GymAtari.resetVal resize [row] raw0) raw1).headD
        []).getD 3 []
      = ((GymAtari.resetVal resize [row] raw0).headD []).getD 2 [] := by
  have h1 : GymAtari.resetVal resize [row] raw0
      = [List.replicate 4 (GymAtari.prepro resize raw0)] :=
    gymAtari_resetVal_eq resize row raw0 hrow
  have h2 : GymAtari.stepVal resize
        [List.replicate 4 (GymAtari.prepro resize raw0)] raw1
      = [[GymAtari.prepro resize raw1, GymAtari.prepro resize raw0,
          GymAtari.prepro resize raw0, GymAtari.prepro resize raw0]] := rfl
  rw [h1, h2]
  have hr0 := hres (rgb2gray raw0)
  have hr1 := hres (rgb2gray raw1)
  refine ⟨?_, ?_, rfl, rfl, rfl, rfl⟩
  · have hsh : shape4 [List.replicate 4 (GymAtari.prepro resize raw0)]
        = [1, 4, (GymAtari.prepro resize raw0).length,
          ((GymAtari.prepro resize raw0).headD []).length] := rfl
    rw [hsh]
    simp only [GymAtari.prepro]
    rw [hr0.1, hr0.2]
  · have hsh : shape4 [[GymAtari.prepro resize raw1, GymAtari.prepro resize raw0,
          GymAtari.prepro resize raw0, GymAtari.prepro resize raw0]]
        = [1, 4, (GymAtari.prepro resize raw1).length,
          ((GymAtari.prepro resize raw1).headD []).length] := rfl
    rw [hsh]
    simp only [GymAtari.prepro]
    rw [hr1.1, hr1.2]

/-- C4 witness: a concrete run with an all-zero 80x80 resize output. -/
theorem c4_witness :
    shape4 (GymAtari.resetVal
        (fun _ => List.replicate 80 (List.replicate 80 (0 : ℚ)))
        [List.replicate 4 []] []) = [1, 4, 80, 80] ∧
    shape4 (GymAtari.stepVal
        (fun _ => List.replicate 80 (List.replicate 80 (0 : ℚ)))
        (GymAtari.resetVal
          (fun _ => List.replicate 80 (List.replicate 80 (0 : ℚ)))
          [List.replicate 4 []] []) []) = [1, 4, 80, 80] ∧
    ((GymAtari.stepVal
        (fun _ => List.replicate 80 (List.replicate 80 (0 : ℚ)))
        (GymAtari.resetVal
          (fun _ => List.replicate 80 (List.replicate 80 (0 : ℚ)))
          [List.replicate 4 []] []) []).headD []).getD 0 []
      = GymAtari.prepro
          (fun _ => List.replicate 80 (List.replicate 80 (0 : ℚ))) [] ∧
    ((GymAtari.stepVal
        (fun _ => List.replicate 80 (List.replicate 80 (0 : ℚ)))
        (GymAtari.resetVal
          (fun _ => List.replicate 80 (List.replicate 80 (0 : ℚ)))
          [List.replicate 4 []] []) []).headD []).getD 1 []
      = ((GymAtari.resetVal
          (fun _ => List.replicate 80 (List.replicate 80 (0 : ℚ)))
          [List.replicate 4 []] []).headD []).getD 0 [] ∧
    ((GymAtari.stepVal
        (fun _ => List.replicate 80 (List.replicate 80 (0 : ℚ)))
        (GymAtari.resetVal
          (fun _ => List.replicate 80 (List.replicate 80 (0 : ℚ)))
          [List.replicate 4 []] []) []).headD []).getD 2 []
      = ((GymAtari.resetVal
          (fun _ => List.replicate 80 (List.replicate 80 (0 : ℚ)))
          [List.replicate 4 []] []).headD []).getD 1 [] ∧
    ((GymAtari.stepVal
        (fun _ => List.replicate 80 (List.replicate 80 (0 : ℚ)))
        (GymAtari.resetVal
          (fun _ => List.replicate 80 (List.replicate 80 (0 : ℚ)))
          [List.replicate 4 []] []) []).headD []).getD 3 []
      = ((GymAtari.resetVal
          (fun _ => List.replicate 80 (List.replicate 80 (0 : ℚ)))
          [List.replicate 4 []] []).headD []).getD 2 [] :=
  c4_amended_shape_and_shift
    (fun _ => List.replicate 80 (List.replicate 80 (0 : ℚ)))
    (List.replicate 4 []) [] [] rfl
    (fun _ => ⟨rfl, rfl⟩)

/-- C7 counterexample: the Pong-specialized pre-processor mutates the
caller's input frame.  On the all-144 frame, the background-erasure
assignment writes 0 through the slice view into the caller's buffer at
position (35, 0, 0), which originally held 144, so process() is not
side-effect free on its input. -/
theorem c7_counterexample :
    GymAtariPong.preproBuf (fun _ _ _ => 144) 35 0 0 = 0 ∧
    GymAtariPong.preproBuf (fun _ _ _ => 144) ≠ (fun _ _ _ => (144 : ℕ)) := by
  have h : GymAtariPong.preproBuf (fun _ _ _ => 144) 35 0 0 = 0 := by decide
  refine ⟨h, fun hc => ?_⟩
  rw [hc] at h
  exact absurd h (by decide)

/-- C7 amended: the generic pre-processor has no side effects — the
caller's input frame is returned unchanged — but the Pong-specialized
pre-processor mutates its input in place through the crop/subsample
view: inside the view, pixels valued 144 or 109 become 0 and every
other nonzero pixel becomes 1; outside the view the input is untouched. -/
theorem c7_amended_generic_pure_pong_mutates (resize : FrameL → FrameL)
    (raw : RGBFrameL) (f : PFrame) (r c ch : ℕ) :
    (GymAtari.preproPair resize raw).2 = raw ∧
    GymAtariPong.preproBuf f r c ch =
      (if GymAtariPong.inView r c ch then
        (if f r c ch = 144 ∨ f r c ch = 109 then 0
          else if f r c ch ≠ 0 then 1 else 0)
        else f r c ch) := by
  refine ⟨rfl, ?_⟩
  by_cases hv : GymAtariPong.inView r c ch
  · by_cases h144 : f r c ch = 144
    · simp [GymAtariPong.preproBuf, GymAtariPong.maskAssignNe0,
        GymAtariPong.maskAssignEq, hv, h144]
    · by_cases h109 : f r c ch = 109
      · simp [GymAtariPong.preproBuf, GymAtariPong.maskAssignNe0,
          GymAtariPong.maskAssignEq, hv, h144, h109]
      · by_cases h0 : f r c ch = 0
        · simp [GymAtariPong.preproBuf, GymAtariPong.maskAssignNe0,
            GymAtariPong.maskAssignEq, hv, h144, h109, h0]
        · simp [GymAtariPong.preproBuf, GymAtariPong.maskAssignNe0,
            GymAtariPong.maskAssignEq, hv, h144, h109, h0]
  · simp [GymAtariPong.preproBuf, GymAtariPong.maskAssignNe0,
      GymAtariPong.maskAssignEq, hv]

/-- C8: for every 210x160x3 input frame, the Pong pre-processor output is
the input cropped to rows 35..194, subsampled by stride 2 on rows and
columns, restricted to channel 0, with the two background values 144 and
109 zeroed and every other nonzero pixel set to 1 — so every output
pixel is 0 or 1. -/
theorem c8_pong_prepro_binary (f : PFrame) (i j : ℕ)
    (hi : i < 80) (_hj : j < 80) :
    GymAtariPong.preproOut f i j = GymAtariPong.preproSpecDescribed f i j ∧
    (GymAtariPong.preproOut f i j = 0 ∨ GymAtariPong.preproOut f i j = 1) := by
  have hv := GymAtariPong.inView_grid i j hi
  have heq : GymAtariPong.preproOut f i j
      = GymAtariPong.preproSpecDescribed f i j := by
    unfold GymAtariPong.preproOut GymAtariPong.preproSpecDescribed
    by_cases h144 : f (35 + 2 * i) (2 * j) 0 = 144
    · simp [GymAtariPong.preproBuf, GymAtariPong.maskAssignNe0,
        GymAtariPong.maskAssignEq, hv, h144]
    · by_cases h109 : f (35 + 2 * i) (2 * j) 0 = 109
      · simp [GymAtariPong.preproBuf, GymAtariPong.maskAssignNe0,
          GymAtariPong.maskAssignEq, hv, h144, h109]
      · by_cases h0 : f (35 + 2 * i) (2 * j) 0 = 0
        · simp [GymAtariPong.preproBuf, GymAtariPong.maskAssignNe0,
            GymAtariPong.maskAssignEq, hv, h144, h109, h0]
        · simp [GymAtariPong.preproBuf, GymAtariPong.maskAssignNe0,
            GymAtariPong.maskAssignEq, hv, h144, h109, h0]
  refine ⟨heq, ?_⟩
  rw [heq]
  unfold GymAtariPong.preproSpecDescribed
  by_cases h1 : f (35 + 2 * i) (2 * j) 0 = 144 ∨ f (35 + 2 * i) (2 * j) 0 = 109
  · simp [h1]
  · by_cases h2 : f (35 + 2 * i) (2 * j) 0 = 0 <;> simp [h1, h2]

/-- C8 witness: a concrete frame whose pixel at the top-left grid
position is 35 (neither background value nor zero) is binarized to 1. -/
theorem c8_witness :
    GymAtariPong.preproOut (fun r c ch => r + c + ch) 0 0
      = GymAtariPong.preproSpecDescribed (fun r c ch => r + c + ch) 0 0 ∧
    (GymAtariPong.preproOut (fun r c ch => r + c + ch) 0 0 = 0 ∨
      GymAtariPong.preproOut (fun r c ch => r + c + ch) 0 0 = 1) :=
  c8_pong_prepro_binary (fun r c ch => r + c + ch) 0 0 (by omega) (by omega)

/-- C9: `GymAtari.reset` and `GymAtari.step` each return
`self.full_state.copy()` — a freshly allocated buffer distinct from the
internal one — so later `step()` calls, which mutate only the internal
buffer (and allocate new copies), leave every previously returned state
value unchanged. -/
theorem c9_returned_copies_unchanged (resize : FrameL → FrameL)
    (h : Store FSA) (buf : ℕ) (raw0 raw1 raw2 : RGBFrameL) (d : FSA)
    (hbuf : buf < h.cells.length)
    (h1 : Store FSA) (r0 : ℕ)
    (e1 : GymAtari.resetStore resize h buf raw0 = (h1, r0))
    (h2 : Store FSA) (r1 : ℕ)
    (e2 : GymAtari.stepStore resize h1 buf raw1 = (h2, r1))
    (h3 : Store FSA) (r2 : ℕ)
    (e3 : GymAtari.stepStore resize h2 buf raw2 = (h3, r2)) :
    r0 ≠ buf ∧ r1 ≠ buf ∧ r1 ≠ r0 ∧
    h2.readD r0 d = h1.readD r0 d ∧
    h3.readD r0 d = h1.readD r0 d ∧
    h3.readD r1 d = h2.readD r1 d := by
  have w1 := writeAlloc_spec h buf
    (GymAtari.resetVal resize (h.readD buf []) raw0) d hbuf
  have e1u : ((h.write buf
      (GymAtari.resetVal resize (h.readD buf []) raw0)).alloc
      (GymAtari.resetVal resize (h.readD buf []) raw0)) = (h1, r0) := e1
  have hh1 : h1 = ((h.write buf
      (GymAtari.resetVal resize (h.readD buf []) raw0)).alloc
      (GymAtari.resetVal resize (h.readD buf []) raw0)).1 :=
    (congrArg Prod.fst e1u).symm
  have hr0 : r0 = h.cells.length := (congrArg Prod.snd e1u).symm.trans w1.1
  have hlen1 : h1.cells.length = h.cells.length + 1 := by
    rw [hh1]; exact w1.2.1
  have hbuf1 : buf < h1.cells.length := by omega
  have w2 := writeAlloc_spec h1 buf
    (GymAtari.stepVal resize (h1.readD buf []) raw1) d hbuf1
  have e2u : ((h1.write buf
      (GymAtari.stepVal resize (h1.readD buf []) raw1)).alloc
      (GymAtari.stepVal resize (h1.readD buf []) raw1)) = (h2, r1) := e2
  have hh2 : h2 = ((h1.write buf
      (GymAtari.stepVal resize (h1.readD buf []) raw1)).alloc
      (GymAtari.stepVal resize (h1.readD buf []) raw1)).1 :=
    (congrArg Prod.fst e2u).symm
  have hr1 : r1 = h1.cells.length := (congrArg Prod.snd e2u).symm.trans w2.1
  have hlen2 : h2.cells.length = h1.cells.length + 1 := by
    rw [hh2]; exact w2.2.1
  have hbuf2 : buf < h2.cells.length := by omega
  have w3 := writeAlloc_spec h2 buf
    (GymAtari.stepVal resize (h2.readD buf []) raw2) d hbuf2
  have e3u : ((h2.write buf
      (GymAtari.stepVal resize (h2.readD buf []) raw2)).alloc
      (GymAtari.stepVal resize (h2.readD buf []) raw2)) = (h3, r2) := e3
  have hh3 : h3 = ((h2.write buf
      (GymAtari.stepVal resize (h2.readD buf []) raw2)).alloc
      (GymAtari.stepVal resize (h2.readD buf []) raw2)).1 :=
    (congrArg Prod.fst e3u).symm
  have hs2 : h2.readD r0 d = h1.readD r0 d := by
    rw [hh2]
    exact w2.2.2.1 r0 (by omega) (by omega)
  have hs3 : h3.readD r0 d = h2.readD r0 d := by
    rw [hh3]
    exact w3.2.2.1 r0 (by omega) (by omega)
  have hs4 : h3.readD r1 d = h2.readD r1 d := by
    rw [hh3]
    exact w3.2.2.1 r1 (by omega) (by omega)
  refine ⟨by omega, by omega, by omega, hs2, by rw [hs3, hs2], hs4⟩

/-- C9 witness: a concrete store holding the zero-initialized buffer. -/
theorem c9_witness :
    (GymAtari.resetStore (fun _ => []) ⟨[GymAtari.initFullState]⟩ 0 []).2 ≠ 0 ∧
    (GymAtari.stepStore (fun _ => [])
      (GymAtari.resetStore (fun _ => []) ⟨[GymAtari.initFullState]⟩ 0 []).1
      0 []).2 ≠ 0 ∧
    (GymAtari.stepStore (fun _ => [])
        (GymAtari.resetStore (fun _ => []) ⟨[GymAtari.initFullState]⟩ 0 []).1
        0 []).2
      ≠ (GymAtari.resetStore (fun _ => []) ⟨[GymAtari.initFullState]⟩ 0 []).2 ∧
    (GymAtari.stepStore (fun _ => [])
        (GymAtari.resetStore (fun _ => []) ⟨[GymAtari.initFullState]⟩ 0 []).1
        0 []).1.readD
        (GymAtari.resetStore (fun _ => []) ⟨[GymAtari.initFullState]⟩ 0 []).2 []
      = (GymAtari.resetStore (fun _ => []) ⟨[GymAtari.initFullState]⟩
          0 []).1.readD
          (GymAtari.resetStore (fun _ => []) ⟨[GymAtari.initFullState]⟩ 0 []).2
          [] ∧
    (GymAtari.stepStore (fun _ => [])
        (GymAtari.stepStore (fun _ => [])
          (GymAtari.resetStore (fun _ => []) ⟨[GymAtari.initFullState]⟩ 0 []).1
          0 []).1 0 []).1.readD
        (GymAtari.resetStore (fun _ => []) ⟨[GymAtari.initFullState]⟩ 0 []).2 []
      = (GymAtari.resetStore (fun _ => []) ⟨[GymAtari.initFullState]⟩
          0 []).1.readD
          (GymAtari.resetStore (fun _ => []) ⟨[GymAtari.initFullState]⟩ 0 []).2
          [] ∧
    (GymAtari.stepStore (fun _ => [])
        (GymAtari.stepStore (fun _ => [])
          (GymAtari.resetStore (fun _ => []) ⟨[GymAtari.initFullState]⟩ 0 []).1
          0 []).1 0 []).1.readD
        (GymAtari.stepStore (fun _ => [])
          (GymAtari.resetStore (fun _ => []) ⟨[GymAtari.initFullState]⟩ 0 []).1
          0 []).2 []
      = (GymAtari.stepStore (fun _ => [])
          (GymAtari.resetStore (fun _ => []) ⟨[GymAtari.initFullState]⟩ 0 []).1
          0 []).1.readD
          (GymAtari.stepStore (fun _ => [])
            (GymAtari.resetStore (fun _ => [])
              ⟨[GymAtari.initFullState]⟩ 0 []).1 0 []).2 [] :=
  c9_returned_copies_unchanged (fun _ => []) ⟨[GymAtari.initFullState]⟩ 0
    [] [] [] [] (by decide) _ _ rfl _ _ rfl _ _ rfl

/-- C10 amended: `UnityMLVisualEnvironmentSimple.reset` rebinds
`full_state` to a fresh buffer and returns that very buffer, and `step`
shifts it in place and again returns the buffer itself — so after a
`step()` every state returned earlier in the same episode is the same
buffer as, and hence equal to, the newly returned state; its value
differs from the original one exactly when the in-place shift changed
the buffer contents (which fails, for instance, when the new frame
equals every frame it displaces). -/
theorem c10_amended_returns_internal_buffer {α : Type} (h : Store (List α))
    (f0 f1 : α) (h1 : Store (List α)) (buf r : ℕ)
    (e1 : UnityVis.resetStore h f0 = (h1, buf, r))
    (h2 : Store (List α)) (r1 : ℕ)
    (e2 : UnityVis.stepStore h1 buf f1 = (h2, r1)) :
    r = buf ∧ r1 = buf ∧
    h1.readD r [] = List.replicate 4 f0 ∧
    h2.readD r [] = stackPush f1 (List.replicate 4 f0) ∧
    (h2.readD r [] = h1.readD r []
      ↔ stackPush f1 (List.replicate 4 f0) = List.replicate 4 f0) := by
  have e1u : ((h.alloc (List.replicate 4 f0)).1,
      (h.alloc (List.replicate 4 f0)).2,
      (h.alloc (List.replicate 4 f0)).2) = (h1, buf, r) := e1
  have hh1 : h1 = (h.alloc (List.replicate 4 f0)).1 :=
    (congrArg Prod.fst e1u).symm
  have hbuf : buf = (h.alloc (List.replicate 4 f0)).2 :=
    (congrArg (fun p => p.2.1) e1u).symm
  have hr : r = (h.alloc (List.replicate 4 f0)).2 :=
    (congrArg (fun p => p.2.2) e1u).symm
  have hread1 : h1.readD r [] = List.replicate 4 f0 := by
    rw [hh1, hr]
    exact Store.readD_alloc_new h (List.replicate 4 f0) []
  have hbufr : r = buf := hr.trans hbuf.symm
  have e2u : (h1.write buf (stackPush f1 (h1.readD buf [])), buf) = (h2, r1) := e2
  have hh2 : h2 = h1.write buf (stackPush f1 (h1.readD buf [])) :=
    (congrArg Prod.fst e2u).symm
  have hr1 : r1 = buf := (congrArg Prod.snd e2u).symm
  have hlen : buf < h1.cells.length := by
    rw [hh1, hbuf]
    simp [Store.alloc]
  have hread2 : h2.readD r [] = stackPush f1 (List.replicate 4 f0) := by
    rw [hh2, hbufr]
    rw [Store.readD_write_eq h1 buf _ [] hlen]
    rw [← hbufr, hread1]
  refine ⟨hbufr, hr1, hread1, hread2, ?_⟩
  rw [hread1, hread2]

/-- C10 counterexample: the aliasing is real, but the claim's clause that
after any `step()` an earlier state "no longer equals its original
value" fails when the pushed frame equals the frames it displaces: here
the stack holds four copies of frame 0 and `step` pushes 0 again, so the
state returned by `reset` still equals its original value
`[0, 0, 0, 0]`. -/
theorem c10_counterexample :
    (UnityVis.stepStore
        (UnityVis.resetStore (⟨[]⟩ : Store (List ℕ)) 0).1
        (UnityVis.resetStore (⟨[]⟩ : Store (List ℕ)) 0).2.1 0).1.readD
        (UnityVis.resetStore (⟨[]⟩ : Store (List ℕ)) 0).2.2 []
      = (UnityVis.resetStore (⟨[]⟩ : Store (List ℕ)) 0).1.readD
          (UnityVis.resetStore (⟨[]⟩ : Store (List ℕ)) 0).2.2 [] ∧
    (UnityVis.resetStore (⟨[]⟩ : Store (List ℕ)) 0).1.readD
        (UnityVis.resetStore (⟨[]⟩ : Store (List ℕ)) 0).2.2 []
      = [0, 0, 0, 0] := by
  constructor <;> rfl

/-- C10 witness: a concrete episode in which reset seeds frame 0 and step
pushes frame 1; both calls return the internal buffer address. -/
theorem c10_witness :
    (UnityVis.resetStore (⟨[]⟩ : Store (List ℕ)) 0).2.2
      = (UnityVis.resetStore (⟨[]⟩ : Store (List ℕ)) 0).2.1 ∧
    (UnityVis.stepStore (UnityVis.resetStore (⟨[]⟩ : Store (List ℕ)) 0).1
        (UnityVis.resetStore (⟨[]⟩ : Store (List ℕ)) 0).2.1 1).2
      = (UnityVis.resetStore (⟨[]⟩ : Store (List ℕ)) 0).2.1 ∧
    (UnityVis.resetStore (⟨[]⟩ : Store (List ℕ)) 0).1.readD
        (UnityVis.resetStore (⟨[]⟩ : Store (List ℕ)) 0).2.2 []
      = List.replicate 4 0 ∧
    (UnityVis.stepStore (UnityVis.resetStore (⟨[]⟩ : Store (List ℕ)) 0).1
        (UnityVis.resetStore (⟨[]⟩ : Store (List ℕ)) 0).2.1 1).1.readD
        (UnityVis.resetStore (⟨[]⟩ : Store (List ℕ)) 0).2.2 []
      = stackPush 1 (List.replicate 4 0) ∧
    ((UnityVis.stepStore (UnityVis.resetStore (⟨[]⟩ : Store (List ℕ)) 0).1
          (UnityVis.resetStore (⟨[]⟩ : Store (List ℕ)) 0).2.1 1).1.readD
          (UnityVis.resetStore (⟨[]⟩ : Store (List ℕ)) 0).2.2 []
        = (UnityVis.resetStore (⟨[]⟩ : Store (List ℕ)) 0).1.readD
            (UnityVis.resetStore (⟨[]⟩ : Store (List ℕ)) 0).2.2 []
      ↔ stackPush 1 (List.replicate 4 0) = List.replicate 4 0) :=
  c10_amended_returns_internal_buffer (⟨[]⟩ : Store (List ℕ)) 0 1
    _ _ _ rfl _ _ rfl
